import Mathlib

/-!
Verification of the GLB batch-processing pipeline (`process_glb_files.py`).

The script is a sequential orchestrator: it discovers `.glb` files in a
fixed imports directory, and for each file creates three staged output
directories and runs three external commands (resize, webp, optimize) in
order, stopping at the first failing step of a file.  The embedding below
models paths as lists of components, the filesystem and the external tool
as an environment of oracles (`Sys`), and the observable behaviour of a
run as an exit code, a summary, and a trace of performed actions.
-/

namespace GLB

/-- A directory entry as seen by `iterdir`: a name together with whether
the entry is a regular file (`is_file()`). -/
structure Entry where
  name : String
  isFile : Bool
deriving DecidableEq, Repr

/-- Index of the last occurrence of `.` in a list of characters
(Python `str.rfind` restricted to the dot), if any. -/
def rfindDot : List Char → Option Nat
  | [] => none
  | c :: cs =>
    match rfindDot cs with
    | some j => some (j + 1)
    | none => if c = '.' then some 0 else none

/-- `pathlib.PurePath.suffix` of a file name: the part from the last dot
on, empty when the last dot is the first character or when there is no
character after it (CPython rule `0 < i < len(name) - 1`). -/
def suffix (name : String) : String :=
  match rfindDot name.data with
  | none => ""
  | some i => if 0 < i ∧ i < name.data.length - 1 then ⟨name.data.drop i⟩ else ""

/-- ASCII lower-casing of a string, modelling `str.lower` on the ASCII
file-name extensions the script compares. -/
def strLower (s : String) : String := ⟨s.data.map Char.toLower⟩

/-- The test `file_path.suffix.lower() == ".glb"` from `get_glb_files`. -/
def hasGlbSuffix (name : String) : Bool := strLower (suffix name) == ".glb"

/-- Strict lexicographic comparison of character lists by code point:
the order Python uses to compare strings (a proper non-empty extension of
a list is greater than it). -/
def lexLt : List Char → List Char → Bool
  | _, [] => false
  | [], _ :: _ => true
  | a :: as, b :: bs =>
    if a.val.toNat < b.val.toNat then true
    else if b.val.toNat < a.val.toNat then false
    else lexLt as bs

/-- The name order `sorted` uses: `a ≤ b` as the negation of `b < a`. -/
def nameLe (a b : String) : Prop := lexLt b.data a.data = false

instance : DecidableRel nameLe :=
  fun a b => inferInstanceAs (Decidable (lexLt b.data a.data = false))

instance : IsTotal String nameLe where
  total a b := by
    have asymm : ∀ as bs : List Char, lexLt as bs = true → lexLt bs as = false := by
      intro as
      induction as with
      | nil =>
        intro bs h
        cases bs with
        | nil => simp [lexLt] at h
        | cons b bs => simp [lexLt]
      | cons a as ih =>
        intro bs h
        cases bs with
        | nil => simp [lexLt] at h
        | cons b bs =>
          simp only [lexLt] at h ⊢
          split_ifs at h ⊢ with h1 h2 h3 <;> first | rfl | omega | exact ih bs h
    rcases hab : lexLt b.data a.data with _ | _
    · exact Or.inl hab
    · exact Or.inr (asymm _ _ hab)

instance : IsTrans String nameLe where
  trans a b c hab hbc := by
    have key : ∀ cs as bs : List Char,
        lexLt cs as = true → lexLt cs bs = true ∨ lexLt bs as = true := by
      intro cs
      induction cs with
      | nil =>
        intro as bs h
        cases as with
        | nil => simp [lexLt] at h
        | cons a as =>
          cases bs with
          | nil => exact Or.inr (by simp [lexLt])
          | cons b bs => exact Or.inl (by simp [lexLt])
      | cons x cs ih =>
        intro as bs h
        cases as with
        | nil => simp [lexLt] at h
        | cons y as =>
          cases bs with
          | nil => exact Or.inr (by simp [lexLt])
          | cons z bs =>
            simp only [lexLt] at h ⊢
            split_ifs at h ⊢ with h1 h2 h3 h4 h5 h6 h7 h8 <;>
              first
                | exact Or.inl rfl
                | exact Or.inr rfl
                | omega
                | exact (ih as bs h).imp id id
    unfold nameLe at hab hbc ⊢
    rcases hca : lexLt c.data a.data with _ | _
    · rfl
    · rcases key c.data a.data b.data hca with h | h
      · rw [hbc] at h; exact h.symm
      · rw [hab] at h; exact h.symm

/-- `get_glb_files`: the regular files of the imports directory whose
suffix, lower-cased, is `.glb`, sorted ascending by name (the paths all
share the directory prefix, so `sorted` on paths orders them by name). -/
def get_glb_files (entries : List Entry) : List String :=
  List.insertionSort nameLe
    ((entries.filter (fun e => e.isFile && hasGlbSuffix e.name)).map Entry.name)

/-- Outcome of starting the external command: it either runs and exits
with a code (with captured stdout and stderr), or the binary cannot be
started at all (`FileNotFoundError`). -/
inductive CmdOutcome where
  | exits (code : Int) (stdout stderr : String)
  | notFound
deriving DecidableEq, Repr

/-- `run_command`: runs the command, returns whether it succeeded (exit
code 0) together with the lines printed.  A non-zero exit raises
`CalledProcessError` which is caught and reported; a missing binary
raises `FileNotFoundError`, reported with a distinct message.  In both
cases the function returns `false` instead of propagating the error. -/
def run_command (command : List String) (description : String)
    (outcome : CmdOutcome) : Bool × List String :=
  let header := ["Running: " ++ description,
                 "Command: " ++ String.intercalate " " command]
  match outcome with
  | .exits code out err =>
    if code = 0 then
      (true, header ++ ["✓ Success: " ++ description]
        ++ (if out = "" then [] else ["Output: " ++ out.trim]))
    else
      (false, header ++ ["✗ Error: " ++ description, "Return code: " ++ toString code]
        ++ (if out = "" then [] else ["Stdout: " ++ out.trim])
        ++ (if err = "" then [] else ["Stderr: " ++ err.trim]))
  | .notFound =>
    (false, header ++
      ["✗ Error: gltf-transform not found. Please ensure it is installed and in PATH."])

/-- The environment a run executes in: the location of the script, whether
the imports directory exists, its entries, whether a `mkdir` of a given
directory succeeds (with `parents=True, exist_ok=True` it only raises when
creation is otherwise impossible), and the outcome of each external
command. -/
structure Sys where
  scriptDir : List String
  importsExists : Bool
  entries : List Entry
  mkdirOk : List String → Bool
  run : List String → CmdOutcome

/-- An observable action performed during a run: a successful directory
creation, or the invocation of an external command. -/
inductive Action where
  | mkdir (dir : List String)
  | runCmd (cmd : List String)
deriving DecidableEq, Repr

/-- Render a path (list of components) the way it appears in command
argument vectors. -/
def pathStr (p : List String) : String := String.intercalate "/" p

/-- `input_file.name`: the final path component. -/
def pathName (p : List String) : String := p.getLastD ""

/-- A staged output path `base_dir / "data" / "exports" / stage / name`. -/
def stagePath (base : List String) (stage name : String) : List String :=
  base ++ ["data", "exports", stage, name]

/-- The resize command vector built in `process_glb_file`. -/
def resizeCmd (input output : List String) : List String :=
  ["gltf-transform", "resize", pathStr input, pathStr output,
   "--width", "1024", "--height", "1024"]

/-- The WebP conversion command vector built in `process_glb_file`. -/
def webpCmd (input output : List String) : List String :=
  ["gltf-transform", "webp", pathStr input, pathStr output,
   "--slots", "baseColor"]

/-- The Draco optimization command vector built in `process_glb_file`. -/
def dracoCmd (input output : List String) : List String :=
  ["gltf-transform", "optimize", pathStr input, pathStr output,
   "--texture-compress", "webp"]

/-- Whether `run_command` reports success for a command in environment
`sys` (the Boolean the per-file pipeline branches on). -/
def stepOk (sys : Sys) (c : List String) (d : String) : Bool :=
  (run_command c d (sys.run c)).1

/-- `process_glb_file`: creates the three staged output directories, then
runs resize, webp and optimize in order, returning at the first failing
step.  Result `some b` is the returned Boolean; `none` models the
uncaught exception raised when a `mkdir` fails.  The second component is
the trace of performed actions, in order. -/
def process_glb_file (sys : Sys) (input_file base_dir : List String) :
    Option Bool × List Action :=
  let name := pathName input_file
  let resize_output := stagePath base_dir "resize" name
  let webp_output := stagePath base_dir "webp" name
  let draco_output := stagePath base_dir "draco" name
  let d1 := resize_output.dropLast
  let d2 := webp_output.dropLast
  let d3 := draco_output.dropLast
  if sys.mkdirOk d1 then
    if sys.mkdirOk d2 then
      if sys.mkdirOk d3 then
        let resize_cmd := resizeCmd input_file resize_output
        if stepOk sys resize_cmd ("Resize " ++ name) then
          let webp_cmd := webpCmd resize_output webp_output
          if stepOk sys webp_cmd ("WebP conversion " ++ name) then
            let draco_cmd := dracoCmd webp_output draco_output
            if stepOk sys draco_cmd ("Draco optimization " ++ name) then
              (some true, [.mkdir d1, .mkdir d2, .mkdir d3,
                .runCmd resize_cmd, .runCmd webp_cmd, .runCmd draco_cmd])
            else
              (some false, [.mkdir d1, .mkdir d2, .mkdir d3,
                .runCmd resize_cmd, .runCmd webp_cmd, .runCmd draco_cmd])
          else
            (some false, [.mkdir d1, .mkdir d2, .mkdir d3,
              .runCmd resize_cmd, .runCmd webp_cmd])
        else
          (some false, [.mkdir d1, .mkdir d2, .mkdir d3, .runCmd resize_cmd])
      else (none, [.mkdir d1, .mkdir d2])
    else (none, [.mkdir d1])
  else (none, [])

/-- `script_dir / "data" / "imports"`. -/
def importsDir (sys : Sys) : List String := sys.scriptDir ++ ["data", "imports"]

/-- The result `process_glb_file` yields for the file called `name` of the
imports directory (`none` models the uncaught `mkdir` exception). -/
def fileResult (sys : Sys) (name : String) : Option Bool :=
  (process_glb_file sys (importsDir sys ++ [name]) sys.scriptDir).1

/-- The action trace `process_glb_file` produces for the file called
`name` of the imports directory. -/
def fileTrace (sys : Sys) (name : String) : List Action :=
  (process_glb_file sys (importsDir sys ++ [name]) sys.scriptDir).2

/-- The `for` loop of `main`: processes the files in order, counting
successes and failures; a `none` from the pipeline (uncaught exception)
aborts the loop. -/
def processLoop (sys : Sys) : List String → Option (Nat × Nat) × List Action
  | [] => (some (0, 0), [])
  | name :: rest =>
    match fileResult sys name with
    | none => (none, fileTrace sys name)
    | some b =>
      match processLoop sys rest with
      | (none, tr) => (none, fileTrace sys name ++ tr)
      | (some (s, f), tr) =>
        (some (if b then s + 1 else s, if b then f else f + 1),
         fileTrace sys name ++ tr)

/-- The outcome of a whole run: the process exit status, whether the run
ended in an uncaught exception, the printed summary
(total, successful, failed) when one is printed, and the trace of all
actions performed. -/
structure RunOutcome where
  exitCode : Nat
  crashed : Bool
  summary : Option (Nat × Nat × Nat)
  actions : List Action
deriving DecidableEq, Repr

/-- `main`: exits 1 when the imports directory is missing, exits 0 with
no processing when no `.glb` files are found, otherwise processes every
file, prints the summary and exits 1 exactly when some file failed.  An
uncaught exception from the loop ends the process with status 1 and no
summary. -/
def main (sys : Sys) : RunOutcome :=
  if sys.importsExists = false then
    { exitCode := 1, crashed := false, summary := none, actions := [] }
  else
    let glb_files := get_glb_files sys.entries
    if glb_files = [] then
      { exitCode := 0, crashed := false, summary := none, actions := [] }
    else
      match processLoop sys glb_files with
      | (none, acts) =>
        { exitCode := 1, crashed := true, summary := none, actions := acts }
      | (some (s, f), acts) =>
        { exitCode := if 0 < f then 1 else 0, crashed := false,
          summary := some (glb_files.length, s, f), actions := acts }

/-- The command vectors of a trace, in order of invocation. -/
def cmdsOf : List Action → List (List String) :=
  List.filterMap fun a =>
    match a with
    | .runCmd c => some c
    | .mkdir _ => none

/-- One of the three staged export directories,
`base_dir / "data" / "exports" / stage`. -/
def exportDir (base : List String) (stage : String) : List String :=
  base ++ ["data", "exports", stage]

/-- The resize command `process_glb_file` builds for a given input file
and base directory. -/
def resizeCmdOf (input base : List String) : List String :=
  resizeCmd input (stagePath base "resize" (pathName input))

/-- The WebP command `process_glb_file` builds for a given input file and
base directory: it reads the resize-stage output. -/
def webpCmdOf (input base : List String) : List String :=
  webpCmd (stagePath base "resize" (pathName input))
    (stagePath base "webp" (pathName input))

/-- The Draco command `process_glb_file` builds for a given input file
and base directory: it reads the webp-stage output. -/
def dracoCmdOf (input base : List String) : List String :=
  dracoCmd (stagePath base "webp" (pathName input))
    (stagePath base "draco" (pathName input))

/-- Environment where two `.glb` files are present and every directory
creation and every external command succeeds. -/
def sysAllOk : Sys where
  scriptDir := []
  importsExists := true
  entries := [⟨"b.glb", true⟩, ⟨"a.GLB", true⟩, ⟨".glb", true⟩, ⟨"c.txt", true⟩,
              ⟨"d.glb", false⟩]
  mkdirOk := fun _ => true
  run := fun _ => .exits 0 "" ""

/-- Environment where two `.glb` files are present but every directory
creation fails. -/
def sysC1 : Sys where
  scriptDir := []
  importsExists := true
  entries := [⟨"a.glb", true⟩, ⟨"b.glb", true⟩]
  mkdirOk := fun _ => false
  run := fun _ => .exits 0 "" ""

/-- Environment whose imports directory does not exist. -/
def sysNoImports : Sys where
  scriptDir := []
  importsExists := false
  entries := []
  mkdirOk := fun _ => true
  run := fun _ => .exits 0 "" ""

/-- Environment where directory creation succeeds but every resize
command exits with status 2. -/
def sysStep1Fail : Sys where
  scriptDir := []
  importsExists := true
  entries := [⟨"a.glb", true⟩]
  mkdirOk := fun _ => true
  run := fun c => if c.getD 1 "" = "resize" then .exits 2 "" "" else .exits 0 "" ""

/-- Environment where directory creation succeeds but every external
command exits with status 1. -/
def sysAllCmdFail : Sys where
  scriptDir := []
  importsExists := true
  entries := [⟨"a.glb", true⟩]
  mkdirOk := fun _ => true
  run := fun _ => .exits 1 "" ""

theorem stagePath_dropLast (base : List String) (s n : String) :
    (stagePath base s n).dropLast = exportDir base s := by
  rw [stagePath, exportDir, show ["data", "exports", s, n] = ["data", "exports", s] ++ [n] from rfl,
    ← List.append_assoc, List.dropLast_concat]

theorem mem_get_glb_files {entries : List Entry} {s : String} :
    s ∈ get_glb_files entries ↔
      ∃ e ∈ entries, e.isFile = true ∧ hasGlbSuffix e.name = true ∧ e.name = s := by
  unfold get_glb_files
  rw [(List.perm_insertionSort nameLe _).mem_iff]
  simp only [List.mem_map, List.mem_filter, Bool.and_eq_true]
  constructor
  · rintro ⟨e, ⟨he, h1, h2⟩, hn⟩
    exact ⟨e, he, h1, h2, hn⟩
  · rintro ⟨e, he, h1, h2, hn⟩
    exact ⟨e, ⟨he, h1, h2⟩, hn⟩

theorem processLoop_eq_of_no_crash (sys : Sys) (names : List String)
    (h : ∀ n ∈ names, fileResult sys n ≠ none) :
    processLoop sys names =
      (some (names.countP (fun n => fileResult sys n == some true),
             names.countP (fun n => fileResult sys n == some false)),
       (names.map (fileTrace sys)).flatten) := by
  induction names with
  | nil => simp [processLoop]
  | cons name rest ih =>
    have hname := h name (List.mem_cons_self name rest)
    rcases hb : fileResult sys name with _ | b
    · exact absurd hb hname
    · have hrest : ∀ n ∈ rest, fileResult sys n ≠ none :=
        fun n hn => h n (List.mem_cons_of_mem _ hn)
      rw [processLoop, hb, ih hrest]
      cases b <;> simp [List.countP_cons, hb]

theorem processLoop_none_iff (sys : Sys) (names : List String) :
    (processLoop sys names).1 = none ↔ ∃ n ∈ names, fileResult sys n = none := by
  induction names with
  | nil => simp [processLoop]
  | cons name rest ih =>
    rcases hb : fileResult sys name with _ | b
    · simp only [processLoop, hb]
      exact iff_of_true trivial ⟨name, List.mem_cons_self name rest, hb⟩
    · rw [processLoop, hb]
      rcases hq : processLoop sys rest with ⟨q1, tr⟩
      rw [hq] at ih
      rcases q1 with _ | ⟨s, f⟩
      · simp only [List.mem_cons]
        refine iff_of_true trivial ?_
        rcases ih.mp rfl with ⟨n, hn, hr⟩
        exact ⟨n, Or.inr hn, hr⟩
      · simp only [List.mem_cons]
        constructor
        · intro hcon; simp at hcon
        · rintro ⟨n, hn | hn, hr⟩
          · subst hn; simp [hb] at hr
          · exact absurd (ih.mpr ⟨n, hn, hr⟩) (by simp)

theorem processLoop_crash_at (sys : Sys) (pre : List String) (name : String)
    (rest : List String)
    (hpre : ∀ m ∈ pre, fileResult sys m ≠ none)
    (hname : fileResult sys name = none) :
    processLoop sys (pre ++ name :: rest) =
      (none, (pre.map (fileTrace sys)).flatten ++ fileTrace sys name) := by
  induction pre with
  | nil => simp [processLoop, hname]
  | cons m pre ih =>
    have hm := hpre m (List.mem_cons_self m pre)
    rcases hb : fileResult sys m with _ | b
    · exact absurd hb hm
    · have hpre' : ∀ x ∈ pre, fileResult sys x ≠ none :=
        fun x hx => hpre x (List.mem_cons_of_mem _ hx)
      rw [List.cons_append, processLoop, hb, ih hpre']
      simp

/-- Claim C1 (counterexample): in an environment with two discovered
`.glb` files where directory creation fails, the run does NOT continue
with the remaining file: it ends in an uncaught exception with no
summary and an empty action trace — nothing at all is done for the
second file, contradicting "fatal only for the affected file". -/
theorem mkdir_failure_not_isolated_cex :
    get_glb_files sysC1.entries = ["a.glb", "b.glb"]
    ∧ (main sysC1).crashed = true
    ∧ (main sysC1).summary = none
    ∧ (main sysC1).actions = []
    ∧ (main sysC1).exitCode = 1 := by decide

/-- Claim C1 (amended): if creating one of the staged output directories
fails, the `mkdir` exception propagates uncaught out of
`process_glb_file` and out of `main`'s loop: the whole run aborts with
exit status 1 and no summary, and only the first file's partial trace is
ever performed — later files are never processed. -/
theorem mkdir_failure_aborts_run (sys : Sys)
    (himp : sys.importsExists = true)
    (hne : get_glb_files sys.entries ≠ [])
    (hmk : sys.mkdirOk (exportDir sys.scriptDir "resize") = false
         ∨ sys.mkdirOk (exportDir sys.scriptDir "webp") = false
         ∨ sys.mkdirOk (exportDir sys.scriptDir "draco") = false) :
    (main sys).crashed = true ∧ (main sys).exitCode = 1 ∧ (main sys).summary = none
    ∧ (main sys).actions = fileTrace sys ((get_glb_files sys.entries).headD "") := by
  have hnone : ∀ n, fileResult sys n = none := by
    intro n
    unfold fileResult process_glb_file
    simp only [stagePath_dropLast]
    rcases hmk with h | h | h <;> simp only [h] <;> split_ifs <;> simp_all
  obtain ⟨name, rest, hsplit⟩ := List.exists_cons_of_ne_nil hne
  have hloop := processLoop_crash_at sys [] name rest (by simp) (hnone name)
  simp only [List.nil_append, List.map_nil, List.flatten_nil] at hloop
  unfold main
  rw [if_neg (by simp [himp]), hsplit, if_neg (by simp), hloop]
  simp

/-- Witness for C1's amended theorem at the concrete environment
`sysC1`. -/
theorem mkdir_failure_aborts_run_witness :
    (main sysC1).crashed = true ∧ (main sysC1).exitCode = 1 ∧ (main sysC1).summary = none
    ∧ (main sysC1).actions = fileTrace sysC1 ((get_glb_files sysC1.entries).headD "") :=
  mkdir_failure_aborts_run sysC1 rfl (by decide) (Or.inl rfl)

/-- Claim C2: the process exit status is 0 iff the imports directory
exists and either no `.glb` file was discovered or every discovered file
was processed successfully by all three steps; moreover the exit status
is always 0 or 1 (a missing imports directory or any failing file gives
1). -/
theorem exit_zero_iff (sys : Sys) :
    ((main sys).exitCode = 0 ↔
      (sys.importsExists = true ∧
        (get_glb_files sys.entries = [] ∨
          ∀ n ∈ get_glb_files sys.entries, fileResult sys n = some true)))
    ∧ ((main sys).exitCode = 0 ∨ (main sys).exitCode = 1) := by
  unfold main
  rcases himp : sys.importsExists with _ | _
  · simp
  · by_cases hemp : get_glb_files sys.entries = []
    · simp [hemp]
    · rw [if_neg (by simp), if_neg hemp]
      rcases hpl : processLoop sys (get_glb_files sys.entries) with ⟨o, acts⟩
      rcases o with _ | ⟨s, f⟩
      · have hcr : ∃ n ∈ get_glb_files sys.entries, fileResult sys n = none :=
          (processLoop_none_iff sys _).mp (by rw [hpl])
        refine ⟨iff_of_false (by simp) ?_, Or.inr (by simp)⟩
        rintro ⟨-, hall | hall⟩
        · exact hemp hall
        · rcases hcr with ⟨n, hn, hr⟩
          rw [hall n hn] at hr
          cases hr
      · have hnc : ∀ n ∈ get_glb_files sys.entries, fileResult sys n ≠ none := by
          intro n hn hr
          have hx := (processLoop_none_iff sys _).mpr ⟨n, hn, hr⟩
          rw [hpl] at hx
          cases hx
        have heq := processLoop_eq_of_no_crash sys _ hnc
        rw [hpl] at heq
        have h2 : (s, f) = ((get_glb_files sys.entries).countP
              (fun n => fileResult sys n == some true),
            (get_glb_files sys.entries).countP
              (fun n => fileResult sys n == some false)) :=
          Option.some.inj (congrArg Prod.fst heq)
        have hf : f = (get_glb_files sys.entries).countP
            (fun n => fileResult sys n == some false) := congrArg Prod.snd h2
        dsimp only
        rcases Nat.eq_zero_or_pos f with hz | hz
        · rw [hz, if_neg (by omega)]
          refine ⟨iff_of_true rfl ⟨rfl, Or.inr ?_⟩, Or.inl rfl⟩
          intro n hn
          have hb := hnc n hn
          rcases hx : fileResult sys n with _ | b
          · exact absurd hx hb
          · cases b
            · rw [hz] at hf
              have := (List.countP_eq_zero.mp hf.symm) n hn
              rw [hx] at this
              simp at this
            · rfl
        · rw [if_pos hz]
          refine ⟨iff_of_false (by simp) ?_, Or.inr rfl⟩
          rintro ⟨-, hall | hall⟩
          · exact hemp hall
          · have hcz : (get_glb_files sys.entries).countP
                (fun n => fileResult sys n == some false) = 0 := by
              apply List.countP_eq_zero.mpr
              intro n hn
              rw [hall n hn]
              simp
            omega

/-- Witness for C2 at the concrete all-success environment. -/
theorem exit_zero_iff_witness :
    ((main sysAllOk).exitCode = 0 ↔
      (sysAllOk.importsExists = true ∧
        (get_glb_files sysAllOk.entries = [] ∨
          ∀ n ∈ get_glb_files sysAllOk.entries, fileResult sysAllOk n = some true)))
    ∧ ((main sysAllOk).exitCode = 0 ∨ (main sysAllOk).exitCode = 1) :=
  exit_zero_iff sysAllOk

/-- Claim C3: for a run over the discovered files, the printed summary
is `(total, successful, failed)` where total is the number of discovered
files, successful counts the files whose pipeline returned success and
failed those whose pipeline returned failure; successful + failed equals
the total, and the exit status is 0 iff the failed count is 0. -/
theorem summary_counts (sys : Sys)
    (himp : sys.importsExists = true)
    (hne : get_glb_files sys.entries ≠ [])
    (hnc : ∀ n ∈ get_glb_files sys.entries, fileResult sys n ≠ none) :
    (main sys).summary =
      some ((get_glb_files sys.entries).length,
        (get_glb_files sys.entries).countP (fun n => fileResult sys n == some true),
        (get_glb_files sys.entries).countP (fun n => fileResult sys n == some false))
    ∧ (get_glb_files sys.entries).countP (fun n => fileResult sys n == some true)
        + (get_glb_files sys.entries).countP (fun n => fileResult sys n == some false)
        = (get_glb_files sys.entries).length
    ∧ ((main sys).exitCode = 0 ↔
        (get_glb_files sys.entries).countP (fun n => fileResult sys n == some false) = 0) := by
  have heq := processLoop_eq_of_no_crash sys _ hnc
  have hsum : (get_glb_files sys.entries).countP (fun n => fileResult sys n == some true)
      + (get_glb_files sys.entries).countP (fun n => fileResult sys n == some false)
      = (get_glb_files sys.entries).length := by
    have hlen := List.length_eq_countP_add_countP
      (fun n => fileResult sys n == some true) (get_glb_files sys.entries)
    have hcong : (get_glb_files sys.entries).countP
          (fun n => decide (¬(fileResult sys n == some true) = true))
        = (get_glb_files sys.entries).countP (fun n => fileResult sys n == some false) := by
      apply List.countP_congr
      intro n hn
      rcases hx : fileResult sys n with _ | b
      · exact absurd hx (hnc n hn)
      · cases b <;> simp [hx]
    rw [hcong] at hlen
    omega
  unfold main
  rw [if_neg (by simp [himp]), if_neg hne, heq]
  dsimp only
  refine ⟨rfl, hsum, ?_⟩
  rcases Nat.eq_zero_or_pos ((get_glb_files sys.entries).countP
      (fun n => fileResult sys n == some false)) with hz | hz
  · rw [hz, if_neg (by omega)]
  · rw [if_pos hz]
    exact iff_of_false (by simp) (by omega)

/-- Witness for C3 at the concrete all-success environment. -/
theorem summary_counts_witness :
    (main sysAllOk).summary =
      some ((get_glb_files sysAllOk.entries).length,
        (get_glb_files sysAllOk.entries).countP (fun n => fileResult sysAllOk n == some true),
        (get_glb_files sysAllOk.entries).countP (fun n => fileResult sysAllOk n == some false))
    ∧ (get_glb_files sysAllOk.entries).countP (fun n => fileResult sysAllOk n == some true)
        + (get_glb_files sysAllOk.entries).countP (fun n => fileResult sysAllOk n == some false)
        = (get_glb_files sysAllOk.entries).length
    ∧ ((main sysAllOk).exitCode = 0 ↔
        (get_glb_files sysAllOk.entries).countP
          (fun n => fileResult sysAllOk n == some false) = 0) :=
  summary_counts sysAllOk rfl (by decide) (by decide)

/-- Claim C4: for every input file the commands invoked are an initial
segment of the fixed sequence resize, webp, optimize; if the resize step
fails, the webp and optimize commands are never invoked and (when the
directories were created) the file's pipeline returns failure having run
only the resize command; if the webp step fails the optimize command is
never invoked. -/
theorem steps_fixed_order (sys : Sys) (input_file base_dir : List String) :
    (∃ k, cmdsOf (process_glb_file sys input_file base_dir).2 =
        [resizeCmdOf input_file base_dir, webpCmdOf input_file base_dir,
         dracoCmdOf input_file base_dir].take k)
    ∧ (stepOk sys (resizeCmdOf input_file base_dir) ("Resize " ++ pathName input_file) = false →
        Action.runCmd (webpCmdOf input_file base_dir) ∉
          (process_glb_file sys input_file base_dir).2
        ∧ Action.runCmd (dracoCmdOf input_file base_dir) ∉
          (process_glb_file sys input_file base_dir).2
        ∧ (sys.mkdirOk (exportDir base_dir "resize") = true →
           sys.mkdirOk (exportDir base_dir "webp") = true →
           sys.mkdirOk (exportDir base_dir "draco") = true →
            (process_glb_file sys input_file base_dir).1 = some false
            ∧ cmdsOf (process_glb_file sys input_file base_dir).2 =
                [resizeCmdOf input_file base_dir]))
    ∧ (stepOk sys (webpCmdOf input_file base_dir)
          ("WebP conversion " ++ pathName input_file) = false →
        Action.runCmd (dracoCmdOf input_file base_dir) ∉
          (process_glb_file sys input_file base_dir).2) := by
  simp only [process_glb_file, stagePath_dropLast, resizeCmdOf, webpCmdOf, dracoCmdOf]
  split_ifs with hm1 hm2 hm3 hr hw hd
  · exact ⟨⟨3, rfl⟩,
      fun hrf => absurd hr (by simp [hrf]),
      fun hwf => absurd hw (by simp [hwf])⟩
  · exact ⟨⟨3, rfl⟩,
      fun hrf => absurd hr (by simp [hrf]),
      fun hwf => absurd hw (by simp [hwf])⟩
  · refine ⟨⟨2, rfl⟩,
      fun hrf => absurd hr (by simp [hrf]),
      fun hwf => ?_⟩
    simp [resizeCmd, webpCmd, dracoCmd]
  · refine ⟨⟨1, rfl⟩, fun hrf => ⟨?_, ?_, fun _ _ _ => ⟨rfl, rfl⟩⟩, fun hwf => ?_⟩
    · simp [resizeCmd, webpCmd]
    · simp [resizeCmd, dracoCmd]
    · simp [resizeCmd, dracoCmd]
  · exact ⟨⟨0, rfl⟩,
      fun hrf => ⟨by simp, by simp, fun _ _ h3x => absurd h3x hm3⟩,
      fun hwf => by simp⟩
  · exact ⟨⟨0, rfl⟩,
      fun hrf => ⟨by simp, by simp, fun _ h2x _ => absurd h2x hm2⟩,
      fun hwf => by simp⟩
  · exact ⟨⟨0, rfl⟩,
      fun hrf => ⟨by simp, by simp, fun h1x _ _ => absurd h1x hm1⟩,
      fun hwf => by simp⟩

/-- Witness for C4 in the environment where the resize command fails:
the webp command is never invoked and the file's pipeline fails. -/
theorem steps_fixed_order_witness :
    Action.runCmd (webpCmdOf (importsDir sysStep1Fail ++ ["a.glb"]) sysStep1Fail.scriptDir) ∉
      (process_glb_file sysStep1Fail (importsDir sysStep1Fail ++ ["a.glb"])
        sysStep1Fail.scriptDir).2
    ∧ (process_glb_file sysStep1Fail (importsDir sysStep1Fail ++ ["a.glb"])
        sysStep1Fail.scriptDir).1 = some false := by
  have h := (steps_fixed_order sysStep1Fail (importsDir sysStep1Fail ++ ["a.glb"])
    sysStep1Fail.scriptDir).2.1 (by decide)
  exact ⟨h.1, (h.2.2 rfl rfl rfl).1⟩

/-- Claim C5: `run_command` returns success exactly when the external
process exits with status 0; on a non-zero exit it returns failure and
its output contains the error line, the return code and the captured
stdout/stderr (when non-empty); when the binary cannot be started it
returns failure with a distinct tool-unavailable message.  In every case
it returns instead of propagating the error. -/
theorem run_command_spec (c : List String) (d : String) (o : CmdOutcome) :
    ((run_command c d o).1 = true ↔ ∃ out err, o = CmdOutcome.exits 0 out err)
    ∧ (∀ code out err, o = CmdOutcome.exits code out err → code ≠ 0 →
        (run_command c d o).1 = false
        ∧ ("✗ Error: " ++ d) ∈ (run_command c d o).2
        ∧ ("Return code: " ++ toString code) ∈ (run_command c d o).2
        ∧ (out ≠ "" → ("Stdout: " ++ out.trim) ∈ (run_command c d o).2)
        ∧ (err ≠ "" → ("Stderr: " ++ err.trim) ∈ (run_command c d o).2))
    ∧ (o = CmdOutcome.notFound →
        (run_command c d o).1 = false
        ∧ "✗ Error: gltf-transform not found. Please ensure it is installed and in PATH."
            ∈ (run_command c d o).2) := by
  rcases o with ⟨code, out, err⟩ | _
  · refine ⟨?_, ?_, by intro h; cases h⟩
    · by_cases hc : code = 0
      · subst hc
        simp only [run_command, if_pos rfl]
        exact iff_of_true rfl ⟨out, err, rfl⟩
      · simp only [run_command, if_neg hc]
        constructor
        · intro h; cases h
        · rintro ⟨out2, err2, heq⟩
          rcases heq with ⟨⟩
          exact absurd rfl hc
    · rintro code2 out2 err2 ⟨⟩ hne
      refine ⟨by simp [run_command, if_neg hne], ?_, ?_, ?_, ?_⟩
      · simp [run_command, if_neg hne]
      · simp [run_command, if_neg hne]
      · intro hx
        simp [run_command, if_neg hne, hx]
      · intro hx
        simp [run_command, if_neg hne, hx]
  · refine ⟨?_, by rintro code out err ⟨⟩, fun _ => ⟨rfl, by simp [run_command]⟩⟩
    constructor
    · intro h; cases h
    · rintro ⟨out2, err2, ⟨⟩⟩

/-- Witness for C5 at a non-zero exit and at a missing binary. -/
theorem run_command_spec_witness :
    (run_command ["gltf-transform"] "d" (CmdOutcome.exits 2 "" "boom")).1 = false
    ∧ ("Return code: " ++ toString (2 : Int))
        ∈ (run_command ["gltf-transform"] "d" (CmdOutcome.exits 2 "" "boom")).2
    ∧ ("Stderr: " ++ "boom".trim)
        ∈ (run_command ["gltf-transform"] "d" (CmdOutcome.exits 2 "" "boom")).2
    ∧ "✗ Error: gltf-transform not found. Please ensure it is installed and in PATH."
        ∈ (run_command ["x"] "d" CmdOutcome.notFound).2 := by
  have h1 := (run_command_spec ["gltf-transform"] "d"
    (CmdOutcome.exits 2 "" "boom")).2.1 2 "" "boom" rfl (by decide)
  have h2 := (run_command_spec ["x"] "d" CmdOutcome.notFound).2.2 rfl
  exact ⟨h1.1, h1.2.2.1, h1.2.2.2.2 (by decide), h2.2⟩

/-- Claim C6: discovery returns exactly the regular files whose
(lower-cased) suffix is `.glb` — membership is equivalent to such an
entry existing — in ascending name order, and the number of returned
names equals the number of matching entries. -/
theorem get_glb_files_spec (entries : List Entry) :
    List.Sorted nameLe (get_glb_files entries)
    ∧ (∀ s, s ∈ get_glb_files entries ↔
        ∃ e ∈ entries, e.isFile = true ∧ hasGlbSuffix e.name = true ∧ e.name = s)
    ∧ (get_glb_files entries).length
        = (entries.filter (fun e => e.isFile && hasGlbSuffix e.name)).length := by
  refine ⟨List.sorted_insertionSort nameLe _, fun s => mem_get_glb_files, ?_⟩
  unfold get_glb_files
  rw [(List.perm_insertionSort nameLe _).length_eq, List.length_map]

/-- Witness for C6 at a concrete mixed directory listing. -/
theorem get_glb_files_spec_witness :
    List.Sorted nameLe (get_glb_files sysAllOk.entries)
    ∧ (∀ s, s ∈ get_glb_files sysAllOk.entries ↔
        ∃ e ∈ sysAllOk.entries, e.isFile = true ∧ hasGlbSuffix e.name = true ∧ e.name = s)
    ∧ (get_glb_files sysAllOk.entries).length
        = (sysAllOk.entries.filter (fun e => e.isFile && hasGlbSuffix e.name)).length :=
  get_glb_files_spec sysAllOk.entries

/-- Claim C7: when the imports directory does not exist the run exits
with status 1, prints no summary and performs no action at all — no
directory creation and no external command. -/
theorem missing_imports_no_processing (sys : Sys) (h : sys.importsExists = false) :
    main sys = { exitCode := 1, crashed := false, summary := none, actions := [] } := by
  simp [main, h]

/-- Witness for C7 at the concrete environment without an imports
directory. -/
theorem missing_imports_no_processing_witness :
    main sysNoImports = { exitCode := 1, crashed := false, summary := none, actions := [] } :=
  missing_imports_no_processing sysNoImports rfl

/-- Claim C8: when every step succeeds, the three commands run are
exactly resize, webp, optimize; the resize command reads the original
input and writes `data/exports/resize/<name>`, the webp command reads
the resize output and writes `data/exports/webp/<name>`, and the
optimize command reads the webp output and writes
`data/exports/draco/<name>`, all relative to the base directory and with
the input's base name unchanged. -/
theorem output_paths_chain (sys : Sys) (input_file base_dir : List String)
    (h1 : sys.mkdirOk (exportDir base_dir "resize") = true)
    (h2 : sys.mkdirOk (exportDir base_dir "webp") = true)
    (h3 : sys.mkdirOk (exportDir base_dir "draco") = true)
    (hr : stepOk sys (resizeCmdOf input_file base_dir) ("Resize " ++ pathName input_file) = true)
    (hw : stepOk sys (webpCmdOf input_file base_dir)
        ("WebP conversion " ++ pathName input_file) = true)
    (hd : stepOk sys (dracoCmdOf input_file base_dir)
        ("Draco optimization " ++ pathName input_file) = true) :
    (process_glb_file sys input_file base_dir).1 = some true
    ∧ cmdsOf (process_glb_file sys input_file base_dir).2 =
        [resizeCmdOf input_file base_dir, webpCmdOf input_file base_dir,
         dracoCmdOf input_file base_dir]
    ∧ resizeCmdOf input_file base_dir =
        ["gltf-transform", "resize", pathStr input_file,
         pathStr (stagePath base_dir "resize" (pathName input_file)),
         "--width", "1024", "--height", "1024"]
    ∧ webpCmdOf input_file base_dir =
        ["gltf-transform", "webp", pathStr (stagePath base_dir "resize" (pathName input_file)),
         pathStr (stagePath base_dir "webp" (pathName input_file)), "--slots", "baseColor"]
    ∧ dracoCmdOf input_file base_dir =
        ["gltf-transform", "optimize", pathStr (stagePath base_dir "webp" (pathName input_file)),
         pathStr (stagePath base_dir "draco" (pathName input_file)), "--texture-compress", "webp"]
    ∧ (webpCmdOf input_file base_dir).getD 2 "" = (resizeCmdOf input_file base_dir).getD 3 ""
    ∧ (dracoCmdOf input_file base_dir).getD 2 "" = (webpCmdOf input_file base_dir).getD 3 "" := by
  refine ⟨?_, ?_, rfl, rfl, rfl, rfl, rfl⟩ <;>
    simp only [process_glb_file, stagePath_dropLast, h1, h2, h3, if_true,
      resizeCmdOf, webpCmdOf, dracoCmdOf] at hr hw hd ⊢ <;>
    simp [hr, hw, hd, cmdsOf]

/-- Witness for C8 at the all-success environment on file `a.GLB`. -/
theorem output_paths_chain_witness :
    (process_glb_file sysAllOk (importsDir sysAllOk ++ ["a.GLB"]) sysAllOk.scriptDir).1
      = some true
    ∧ cmdsOf (process_glb_file sysAllOk (importsDir sysAllOk ++ ["a.GLB"])
          sysAllOk.scriptDir).2 =
        [resizeCmdOf (importsDir sysAllOk ++ ["a.GLB"]) sysAllOk.scriptDir,
         webpCmdOf (importsDir sysAllOk ++ ["a.GLB"]) sysAllOk.scriptDir,
         dracoCmdOf (importsDir sysAllOk ++ ["a.GLB"]) sysAllOk.scriptDir] := by
  have h := output_paths_chain sysAllOk (importsDir sysAllOk ++ ["a.GLB"]) sysAllOk.scriptDir
    rfl rfl rfl (by decide) (by decide) (by decide)
  exact ⟨h.1, h.2.1⟩

/-- Claim C9: whenever the three directory creations succeed, the
per-file trace starts with exactly the three `mkdir` actions for the
resize, webp and draco export directories, in that order, before any
command invocation; everything after them is only command invocations,
so the directories were created (hence exist) even when every step
fails. -/
theorem dirs_created_before_steps (sys : Sys) (input_file base_dir : List String)
    (h1 : sys.mkdirOk (exportDir base_dir "resize") = true)
    (h2 : sys.mkdirOk (exportDir base_dir "webp") = true)
    (h3 : sys.mkdirOk (exportDir base_dir "draco") = true) :
    ∃ cl : List (List String),
      (process_glb_file sys input_file base_dir).2 =
        Action.mkdir (exportDir base_dir "resize") ::
        Action.mkdir (exportDir base_dir "webp") ::
        Action.mkdir (exportDir base_dir "draco") :: cl.map Action.runCmd := by
  simp only [process_glb_file, stagePath_dropLast, h1, h2, h3, if_true]
  split_ifs with hr hw hd
  · exact ⟨[_, _, _], rfl⟩
  · exact ⟨[_, _, _], rfl⟩
  · exact ⟨[_, _], rfl⟩
  · exact ⟨[_], rfl⟩

/-- Witness for C9 in the environment where every command fails: the
three export directories are still created first. -/
theorem dirs_created_before_steps_witness :
    ∃ cl : List (List String),
      (process_glb_file sysAllCmdFail (importsDir sysAllCmdFail ++ ["a.glb"])
          sysAllCmdFail.scriptDir).2 =
        Action.mkdir (exportDir sysAllCmdFail.scriptDir "resize") ::
        Action.mkdir (exportDir sysAllCmdFail.scriptDir "webp") ::
        Action.mkdir (exportDir sysAllCmdFail.scriptDir "draco") :: cl.map Action.runCmd :=
  dirs_created_before_steps sysAllCmdFail (importsDir sysAllCmdFail ++ ["a.glb"])
    sysAllCmdFail.scriptDir rfl rfl rfl

/-- Claim C10: a regular file named exactly `.glb` is never discovered:
its `pathlib` suffix is empty (the only dot is the leading character),
so the case-insensitive extension test fails. -/
theorem dotfile_not_discovered :
    suffix ".glb" = "" ∧ ∀ entries : List Entry, ".glb" ∉ get_glb_files entries := by
  refine ⟨by decide, fun entries h => ?_⟩
  rcases mem_get_glb_files.mp h with ⟨e, -, -, hsuf, hname⟩
  rw [hname] at hsuf
  exact absurd hsuf (by decide)

/-- Witness for C10 at a directory containing only the dotfile. -/
theorem dotfile_not_discovered_witness :
    ".glb" ∉ get_glb_files [⟨".glb", true⟩] :=
  dotfile_not_discovered.2 [⟨".glb", true⟩]

end GLB
